import Mathlib

/-!
Verification of the FinCo statement-import pipeline (`src/utils.py`,
`src/app.py`) against its natural-language specification.

The Python functions are shallowly embedded: strings are Lean `String`
(lists of characters), Python `float` values are modelled as rationals
(`ℚ`), `datetime` values at day precision as integers, fallible calls as
`Except`/`Option`, and the ORM-backed storage as an explicit list of
stored records.  Each definition follows the corresponding Python
function line by line.
-/

/-- Python whitespace test, as used by `str.strip()` and the regex class
occurring in `parse_amounts` (ASCII whitespace suffices for the data
handled here). -/
def pyIsWs (c : Char) : Bool := c.isWhitespace

/-- Drop trailing whitespace characters. -/
def dropTrailingWs (s : List Char) : List Char :=
  (s.reverse.dropWhile pyIsWs).reverse

/-- Python `str.strip()` on a character list. -/
def pyStripL (s : List Char) : List Char :=
  dropTrailingWs (s.dropWhile pyIsWs)

/-- Python `str.strip()`. -/
def pyStrip (s : String) : String := String.mk (pyStripL s.data)

/-- Does the second list start with the first one? -/
def startsWithL : List Char → List Char → Bool
  | [], _ => true
  | _ :: _, [] => false
  | p :: ps, c :: cs => p == c && startsWithL ps cs

/-- Python `pat in s` substring containment. -/
def containsSubL : List Char → List Char → Bool
  | pat, [] => startsWithL pat []
  | pat, c :: cs => startsWithL pat (c :: cs) || containsSubL pat cs

/-- Fuel-driven worker for `replaceAll`; the fuel is an upper bound on the
number of characters still to be scanned, so with fuel `s.length` the
`0`-fuel branch is never reached on a nonempty list. -/
def replaceAllFuel (pat rep : List Char) : Nat → List Char → List Char
  | _, [] => []
  | 0, s => s
  | n + 1, c :: cs =>
    if startsWithL pat (c :: cs) && !pat.isEmpty then
      rep ++ replaceAllFuel pat rep n ((c :: cs).drop pat.length)
    else
      c :: replaceAllFuel pat rep n cs

/-- Python `str.replace(pat, rep)`: replace every non-overlapping
occurrence, scanning left to right. -/
def replaceAll (pat rep s : List Char) : List Char :=
  replaceAllFuel pat rep s.length s

/-- Characters removed by the importer's regex `[₹$€£¥,\s]`. -/
def isCurrencyOrSep (c : Char) : Bool :=
  c == '₹' || c == '$' || c == '€' || c == '£' || c == '¥' || c == ',' || pyIsWs c

/-- Numeric value of a digit string. -/
def natOfDigits (ds : List Char) : Nat :=
  ds.foldl (fun a c => a * 10 + (c.toNat - 48)) 0

/-- Python `float(s)` on finite decimal/scientific notation, returning
`none` where Python raises `ValueError`.  Grammar: optional sign, digits
with an optional fractional part (at least one digit overall), optional
exponent. -/
def pyFloat (s0 : String) : Option ℚ :=
  let s := pyStripL s0.data
  let sgn : Int × List Char :=
    match s with
    | '+' :: r => (1, r)
    | '-' :: r => (-1, r)
    | r => (1, r)
  let ipRest := sgn.2.span Char.isDigit
  let fpRest : List Char × List Char :=
    match ipRest.2 with
    | '.' :: r => r.span Char.isDigit
    | r => ([], r)
  if ipRest.1.isEmpty && fpRest.1.isEmpty then none
  else
    let mant : Int := sgn.1 * (natOfDigits (ipRest.1 ++ fpRest.1) : Int)
    let fracLen := fpRest.1.length
    match fpRest.2 with
    | [] => some ((mant : ℚ) / 10 ^ fracLen)
    | e :: r =>
      if e == 'e' || e == 'E' then
        let esgn : Int × List Char :=
          match r with
          | '+' :: r2 => (1, r2)
          | '-' :: r2 => (-1, r2)
          | r2 => (1, r2)
        let edRest := esgn.2.span Char.isDigit
        if edRest.1.isEmpty || !edRest.2.isEmpty then none
        else some ((mant : ℚ) * 10 ^ (esgn.1 * (natOfDigits edRest.1 : Int)) / 10 ^ fracLen)
      else none

/-- The character lists for the credit/debit markers. -/
def chCR : List Char := ['C', 'R']

def chCREDIT : List Char := ['C', 'R', 'E', 'D', 'I', 'T']

def chDR : List Char := ['D', 'R']

def chDEBIT : List Char := ['D', 'E', 'B', 'I', 'T']

/-- Embedding of `parse_single_amount` (the inner worker of
`utils.parse_amounts`): strip, unwrap parentheses into a minus sign,
delete currency symbols/commas/whitespace, handle credit/debit markers
(membership tested on the upper-cased string, replacement performed
case-sensitively, `CR` before `CREDIT` and `DR` before `DEBIT`), then
`float(...)` with `0.0` on failure. -/
def parse_single_amount (s0 : String) : ℚ :=
  let s1 := pyStripL s0.data
  let s2 :=
    if startsWithL ['('] s1 && (s1.getLast? == some ')') then
      '-' :: (s1.drop 1).dropLast
    else s1
  let s3 := s2.filter (fun c => !isCurrencyOrSep c)
  let u := s3.map Char.toUpper
  let s4 :=
    if containsSubL chCR u || containsSubL chCREDIT u then
      replaceAll chCREDIT [] (replaceAll chCR [] s3)
    else if containsSubL chDR u || containsSubL chDEBIT u then
      '-' :: replaceAll chDEBIT [] (replaceAll chDR [] s3)
    else s3
  match pyFloat (String.mk s4) with
  | some q => q
  | none => 0

/-- Embedding of `utils.parse_amounts`: a missing cell (`pd.isna`) maps to
`0.0`, any other cell goes through `parse_single_amount`. -/
def parse_amounts (cells : List (Option String)) : List ℚ :=
  cells.map (fun c => match c with
    | none => 0
    | some s => parse_single_amount s)

/-- Lower-case a character list (Python `str.lower()`; the headers and
patterns involved are ASCII). -/
def pyLowerL (s : List Char) : List Char := s.map Char.toLower

/-- The canonical import fields of `auto_detect_column_mapping`, in the
declaration order of its `field_patterns` dictionary. -/
inductive ImportField
  | date
  | description
  | amount
  | merchant
  | account
  | category
deriving DecidableEq

/-- The `field_patterns` table of `auto_detect_column_mapping`, verbatim
(including the duplicated date patterns of the source). -/
def field_patterns : ImportField → List String
  | .date =>
      ["date", "transaction_date", "txn_date", "posting_date", "value_date",
       "txn_date", "trans_date", "transaction_date", "dt", "datetime"]
  | .description =>
      ["description", "merchant", "narration", "details", "particulars",
       "party", "payee", "memo", "reference", "ref", "remark", "note"]
  | .amount =>
      ["amount", "value", "debit", "credit", "transaction_amount",
       "txn_amount", "amt", "sum", "total", "withdrawal", "deposit"]
  | .merchant =>
      ["merchant", "vendor", "shop", "store", "supplier", "party_name",
       "merchant_name", "brand", "company", "business"]
  | .account =>
      ["account", "account_no", "account_number", "acc_no", "acc_number",
       "bank_account", "account_name", "acct"]
  | .category =>
      ["category", "type", "class", "group", "tag", "classification",
       "expense_type", "income_type", "cat"]

/-- Iteration order of the `field_patterns` dictionary. -/
def fieldOrder : List ImportField :=
  [.date, .description, .amount, .merchant, .account, .category]

/-- Does a lower-cased stripped header contain one of the field's
patterns (`any(pattern in col for pattern in patterns)`)? -/
def headerMatches (f : ImportField) (col : List Char) : Bool :=
  (field_patterns f).any (fun p => containsSubL p.data col)

/-- The inner `for i, col in enumerate(columns_lower)` loop with its
`break`: the first matching header yields `i + 1` (1-based, for the
selectbox), later headers are not inspected. -/
def scanCols (f : ImportField) : Nat → List (List Char) → Option Nat
  | _, [] => none
  | i, c :: cs => if headerMatches f c then some (i + 1) else scanCols f (i + 1) cs

/-- Embedding of `utils.auto_detect_column_mapping`: lower-case and strip
every header, then for each field in declaration order record the first
matching header's 1-based index.  The Python dict (insertion-ordered) is
modelled as an association list in field order. -/
def auto_detect_column_mapping (columns : List String) : List (ImportField × Nat) :=
  let columnsLower := columns.map (fun c => pyStripL (pyLowerL c.data))
  fieldOrder.filterMap (fun f => (scanCols f 0 columnsLower).map (fun v => (f, v)))

/-- A persisted transaction row as seen by the duplicate checker:
`Transaction.date` at day precision, `Transaction.amount`, the nullable
`Transaction.description` and the nullable `Transaction.category_id`. -/
structure StoredTxn where
  date : Int
  amount : ℚ
  description : Option String
  category_id : Option Nat
deriving DecidableEq

/-- Python truthiness of a string (nonempty test). -/
def strNonEmpty (s : String) : Bool := !s.data.isEmpty

/-- Python truthiness of an optional string (`if category:`). -/
def strTruthy : Option String → Bool
  | none => false
  | some s => strNonEmpty s

/-- First ten lower-cased characters of a description
(`s.lower()[:10]`). -/
def lowerTake10 (s : String) : List Char := (pyLowerL s.data).take 10

/-- Embedding of `utils.check_duplicate_transaction`.  The storage
session is an `Except`: `.error` stands for any exception raised while
querying, which the function's `try/except` converts into `False`.  The
ORM query filters stored rows by `date BETWEEN date±1 day` and
`amount BETWEEN amount∓1%` (SQL `BETWEEN` is inclusive), plus — when a
truthy category is supplied — `category_id IS NOT NULL`; the Python loop
then compares 10-character lower-cased description stubs, only for
descriptions longer than ten characters. -/
def check_duplicate_transaction (db : Except Unit (List StoredTxn))
    (date : Int) (amount : ℚ) (description : String)
    (category : Option String) : Bool :=
  match db with
  | .error _ => false
  | .ok txns =>
    let tol := |amount| * (1 / 100)
    let existing := txns.filter (fun t =>
      decide (date - 1 ≤ t.date) && decide (t.date ≤ date + 1) &&
      decide (amount - tol ≤ t.amount) && decide (t.amount ≤ amount + tol) &&
      (if strTruthy category then t.category_id.isSome else true))
    existing.any (fun t =>
      match t.description with
      | none => false
      | some td =>
        strNonEmpty td && strNonEmpty description &&
        (decide (10 < td.length) && decide (10 < description.length)) &&
        (lowerTake10 td == lowerTake10 description))

/-- A calendar date as produced by `datetime.strptime` (time fields are
always midnight for the formats in use). -/
structure PyDate where
  year : Nat
  month : Nat
  day : Nat
deriving DecidableEq

/-- Gregorian leap-year test (`datetime`'s calendar). -/
def isLeap (y : Nat) : Bool :=
  y % 4 == 0 && (y % 100 != 0 || y % 400 == 0)

/-- Number of days in a month, as enforced by the `datetime`
constructor. -/
def daysInMonth (y m : Nat) : Nat :=
  if m == 2 then (if isLeap y then 29 else 28)
  else if m == 4 || m == 6 || m == 9 || m == 11 then 30
  else 31

/-- The `datetime(year, month, day)` constructor: `None` models the
`ValueError` raised on an out-of-range component. -/
def mkPyDate (y m d : Nat) : Option PyDate :=
  if 1 ≤ y && 1 ≤ d && d ≤ daysInMonth y m then some ⟨y, m, d⟩ else none

/-- Parse a numeric `strptime` field (`%d` with `maxv = 31`, `%m` with
`maxv = 12`): the underlying regex prefers a two-digit match in
`01..maxv` and backtracks to a single digit `1..9`; `k` is the
continuation on the remaining input. -/
def pNum (maxv : Nat) (k : Nat → List Char → Option PyDate) (s : List Char) :
    Option PyDate :=
  (match s with
   | a :: b :: r =>
     if a.isDigit && b.isDigit then
       let v := 10 * (a.toNat - 48) + (b.toNat - 48)
       if 1 ≤ v && v ≤ maxv then k v r else none
     else none
   | _ => none) <|>
  (match s with
   | a :: r =>
     if a.isDigit && 1 ≤ a.toNat - 48 && a.toNat - 48 ≤ 9 then k (a.toNat - 48) r
     else none
   | _ => none)

/-- Parse the `%Y` field: exactly four digits. -/
def pYear4 (k : Nat → List Char → Option PyDate) (s : List Char) : Option PyDate :=
  match s with
  | a :: b :: c :: d :: r =>
    if a.isDigit && b.isDigit && c.isDigit && d.isDigit then
      k (1000 * (a.toNat - 48) + 100 * (b.toNat - 48) + 10 * (c.toNat - 48) + (d.toNat - 48)) r
    else none
  | _ => none

/-- Parse a literal separator character of the format string. -/
def pSep (c : Char) (k : List Char → Option PyDate) : List Char → Option PyDate
  | x :: r => if x == c then k r else none
  | [] => none

/-- Parse the `\s+` that `strptime` substitutes for a literal space in
the format (one or more whitespace characters; greedy is adequate since
the following token never starts with whitespace). -/
def pWs (k : List Char → Option PyDate) : List Char → Option PyDate
  | x :: r => if pyIsWs x then k (r.dropWhile pyIsWs) else none
  | [] => none

/-- Month names with their numbers, as matched case-insensitively by
`%B`. -/
def monthFull : List (Nat × String) :=
  [(1, "january"), (2, "february"), (3, "march"), (4, "april"),
   (5, "may"), (6, "june"), (7, "july"), (8, "august"),
   (9, "september"), (10, "october"), (11, "november"), (12, "december")]

/-- Month abbreviations with their numbers, as matched case-insensitively
by `%b`. -/
def monthAbbr : List (Nat × String) :=
  [(1, "jan"), (2, "feb"), (3, "mar"), (4, "apr"), (5, "may"), (6, "jun"),
   (7, "jul"), (8, "aug"), (9, "sep"), (10, "oct"), (11, "nov"), (12, "dec")]

/-- Parse a month-name field: try each alternative, matching
case-insensitively and backtracking into `k` like the underlying regex
alternation. -/
def pMonthName (names : List (Nat × String)) (k : Nat → List Char → Option PyDate)
    (s : List Char) : Option PyDate :=
  match names with
  | [] => none
  | (m, nm) :: rest =>
    (if startsWithL nm.data (pyLowerL s) then k m (s.drop nm.data.length) else none) <|>
    pMonthName rest k s

/-- The nine explicit formats tried by `utils.parse_dates`, as named
constructors in source order. -/
inductive DateFmt
  | dmySlash   -- %d/%m/%Y
  | mdySlash   -- %m/%d/%Y
  | ymdDash    -- %Y-%m-%d
  | dmyDash    -- %d-%m-%Y
  | ymdSlash   -- %Y/%m/%d
  | dmyDot     -- %d.%m.%Y
  | mdyDash    -- %m-%d-%Y
  | dMonY      -- %d %b %Y
  | dMonthY    -- %d %B %Y
deriving DecidableEq

/-- End of a format: the regex must have consumed the whole string, then
the `datetime` constructor validates the fields. -/
def pEnd (y m d : Nat) : List Char → Option PyDate
  | [] => mkPyDate y m d
  | _ => none

/-- `datetime.strptime(s, fmt)` for the nine formats: the whole string
must be consumed, fields are validated by the `datetime` constructor. -/
def strptime (f : DateFmt) (str : String) : Option PyDate :=
  match f with
  | .dmySlash =>
    pNum 31 (fun d => pSep '/' (pNum 12 (fun m => pSep '/' (pYear4 (fun y => pEnd y m d))))) str.data
  | .mdySlash =>
    pNum 12 (fun m => pSep '/' (pNum 31 (fun d => pSep '/' (pYear4 (fun y => pEnd y m d))))) str.data
  | .ymdDash =>
    pYear4 (fun y => pSep '-' (pNum 12 (fun m => pSep '-' (pNum 31 (fun d => pEnd y m d))))) str.data
  | .dmyDash =>
    pNum 31 (fun d => pSep '-' (pNum 12 (fun m => pSep '-' (pYear4 (fun y => pEnd y m d))))) str.data
  | .ymdSlash =>
    pYear4 (fun y => pSep '/' (pNum 12 (fun m => pSep '/' (pNum 31 (fun d => pEnd y m d))))) str.data
  | .dmyDot =>
    pNum 31 (fun d => pSep '.' (pNum 12 (fun m => pSep '.' (pYear4 (fun y => pEnd y m d))))) str.data
  | .mdyDash =>
    pNum 12 (fun m => pSep '-' (pNum 31 (fun d => pSep '-' (pYear4 (fun y => pEnd y m d))))) str.data
  | .dMonY =>
    pNum 31 (fun d => pWs (pMonthName monthAbbr (fun m => pWs (pYear4 (fun y => pEnd y m d))))) str.data
  | .dMonthY =>
    pNum 31 (fun d => pWs (pMonthName monthFull (fun m => pWs (pYear4 (fun y => pEnd y m d))))) str.data

/-- The `formats` list of `parse_single_date`, in source order. -/
def dateFormats : List DateFmt :=
  [.dmySlash, .mdySlash, .ymdDash, .dmyDash, .ymdSlash, .dmyDot, .mdyDash,
   .dMonY, .dMonthY]

/-- The `for fmt in formats: try … except ValueError: continue` loop. -/
def tryFormats (s : String) : List DateFmt → Option PyDate
  | [] => none
  | f :: fs =>
    match strptime f s with
    | some d => some d
    | none => tryFormats s fs

/-- Embedding of `parse_single_date` (the inner worker of
`utils.parse_dates`).  `fallback` models `pd.to_datetime(_, errors
set to coerce)`, the permissive last-resort parser, which returns
`NaT` (`none`) instead of raising; a missing cell (`pd.isna`) maps
straight to `NaT`. -/
def parse_single_date (fallback : String → Option PyDate)
    (cell : Option String) : Option PyDate :=
  match cell with
  | none => none
  | some raw =>
    let s := pyStrip raw
    match tryFormats s dateFormats with
    | some d => some d
    | none => fallback s

/-- Embedding of `utils.parse_dates`: apply `parse_single_date` to every
cell of the series. -/
def parse_dates (fallback : String → Option PyDate)
    (cells : List (Option String)) : List (Option PyDate) :=
  cells.map (parse_single_date fallback)

/-- A transaction record as staged by the importer
(`Transaction(date=…, amount=…, description=…, category_id=…)`; the
constant `user_id`/`account_id` fields are omitted). -/
structure NewTxn where
  date : Int
  amount : ℚ
  description : String
  category_id : Option Nat
deriving DecidableEq

/-- One row of the parsed DataFrame together with the behaviour of the
external calls made while staging it: `extractOk` is false when reading
the row's fields (`row['date']`, edits, …) raises; `dupDb` is the
storage session seen by `check_duplicate_transaction` for this row;
`addOk` is false when `db.add(transaction)` raises. -/
structure RowEnv where
  extractOk : Bool
  date : Int
  amount : ℚ
  description : String
  category : String
  dupDb : Except Unit (List StoredTxn)
  addOk : Bool

/-- The `try: … except:` body run for one row inside
`save_transactions_to_db_atomic`: extract the (edit-overlaid) fields,
silently skip a zero amount, skip a detected duplicate, then stage the
record; `.error` is an exception reaching the row-level handler. -/
def processRow (catMap : List (String × Nat)) (env : RowEnv) :
    Except Unit (Option NewTxn) :=
  if env.extractOk = false then .error () else
  if env.amount = 0 then .ok none else
  if check_duplicate_transaction env.dupDb env.date env.amount env.description
      (some env.category) = true then .ok none else
  if env.addOk = false then .error () else
  .ok (some ⟨env.date, env.amount, env.description, catMap.lookup env.category⟩)

/-- The row loop of `save_transactions_to_db_atomic`: accumulate
`success_count`, `error_count` and the list of staged records, catching
each row's exception locally and continuing. -/
def importLoop (catMap : List (String × Nat)) : List RowEnv → Nat × Nat × List NewTxn
  | [] => (0, 0, [])
  | env :: rest =>
    let r := importLoop catMap rest
    match processRow catMap env with
    | .error _ => (r.1, r.2.1 + 1, r.2.2)
    | .ok none => r
    | .ok (some t) => (r.1 + 1, r.2.1, t :: r.2.2)

/-- Modelled from the spec: `DatabaseSession` is imported from `db` but
is absent from the source tree, so its commit/rollback behaviour is
taken from the specification — the single `db.commit()` persists every
staged row together, and a failing commit (or the session's rollback on
that exception) persists none of them. -/
def commitStaged (commitOk : Bool) (staged : List NewTxn) : List NewTxn :=
  if commitOk then staged else []

/-- Embedding of `app.save_transactions_to_db_atomic` (persistence part):
run the row loop, then commit once; the outer `except` of the source
turns a failing commit into `success_count = 0` and `error_count =
len(df_parsed)`.  Result: `(success_count, error_count, persisted
rows)`. -/
def save_transactions_to_db_atomic (catMap : List (String × Nat))
    (commitOk : Bool) (rows : List RowEnv) : Nat × Nat × List NewTxn :=
  let r := importLoop catMap rows
  if commitOk then (r.1, r.2.1, commitStaged commitOk r.2.2)
  else (0, rows.length, commitStaged commitOk r.2.2)

/-- A stored transaction used as concrete instantiation data. -/
def wTxn : StoredTxn := ⟨5, 0, some "abcdefghijkZ", some 3⟩

/-- A row whose field extraction raises. -/
def wRowErr : RowEnv := ⟨false, 0, 1, "bad row", "", .ok [], true⟩

/-- A well-behaved row. -/
def wRowOkA : RowEnv := ⟨true, 1, 2, "first ok row", "", .ok [], true⟩

/-- Another well-behaved row. -/
def wRowOkB : RowEnv := ⟨true, 2, 3, "second ok row", "", .ok [], true⟩

/-- A row whose resolved amount is zero. -/
def wRowZero : RowEnv := ⟨true, 3, 0, "zero amount row", "", .ok [], true⟩

/-- A row whose duplicate-check storage session raises. -/
def wRowDbErr : RowEnv := ⟨true, 7, 1, "db down row", "Food", .error (), true⟩

/-- C2 (counterexample): the spec's first listed value is wrong — the
amount parser maps `"₹1,234.50"` to `+1234.50`, not `-1234.50`: nothing
in that string triggers the parenthesis or debit branches. -/
theorem parse_amount_rupee_cex :
    parse_single_amount "₹1,234.50" = 1234.5 ∧ (1234.5 : ℚ) ≠ -1234.5 := by
  constructor
  · have h : parse_single_amount "₹1,234.50" = (123450 : ℚ) / 10 ^ 2 := rfl
    rw [h]; norm_num
  · norm_num

/-- C2 (amended): the four sample amount strings parse to `1234.50`,
`-1234.50`, `-1234.50` and `1234.50` respectively — the currency-symbol
form keeps its positive sign, parentheses and the `DR` marker negate,
and the `CR` marker keeps the value positive. -/
theorem parse_amount_samples :
    parse_single_amount "₹1,234.50" = 1234.5 ∧
    parse_single_amount "(1234.50)" = -1234.5 ∧
    parse_single_amount "1234.50 DR" = -1234.5 ∧
    parse_single_amount "1234.50 CR" = 1234.5 := by
  refine ⟨?_, ?_, ?_, ?_⟩
  · have h : parse_single_amount "₹1,234.50" = (123450 : ℚ) / 10 ^ 2 := rfl
    rw [h]; norm_num
  · have h : parse_single_amount "(1234.50)" = (-123450 : ℚ) / 10 ^ 2 := rfl
    rw [h]; norm_num
  · have h : parse_single_amount "1234.50 DR" = (-123450 : ℚ) / 10 ^ 2 := rfl
    rw [h]; norm_num
  · have h : parse_single_amount "1234.50 CR" = (123450 : ℚ) / 10 ^ 2 := rfl
    rw [h]; norm_num

/-- C3 (code bug): a `CREDIT` marker is never stripped — `replace('CR',
'')` runs first and turns `1234.50CREDIT` into `1234.50EDIT`, so the
final `float(...)` fails and the parser returns the 0.0 sentinel instead
of the positive amount; the debit side (`DEBIT`) works as specified,
which shows the credit branch is a slip. -/
theorem parse_amount_credit_marker_bug :
    parse_single_amount "1234.50 CREDIT" = 0 ∧
    parse_single_amount "1234.50 DEBIT" = -1234.5 := by
  constructor
  · rfl
  · have h : parse_single_amount "1234.50 DEBIT" = (-123450 : ℚ) / 10 ^ 2 := rfl
    rw [h]; norm_num

theorem scanCols_eq_findIdx (f : ImportField) :
    ∀ (cols : List (List Char)) (i : Nat),
      scanCols f i cols = (List.findIdx? (headerMatches f) cols i).map (· + 1) := by
  intro cols
  induction cols with
  | nil => intro i; rfl
  | cons c cs ih =>
    intro i
    simp only [scanCols, List.findIdx?_cons]
    by_cases h : headerMatches f c
    · simp [h]
    · simp [h, ih (i + 1)]

theorem lookup_filterMap_absent (F : ImportField → Option Nat) :
    ∀ (l : List ImportField) (f : ImportField), f ∉ l →
      (l.filterMap (fun x => (F x).map (fun v => (x, v)))).lookup f = none := by
  intro l
  induction l with
  | nil => intro f _; rfl
  | cons a t ih =>
    intro f hf
    have hfa : f ≠ a := fun h => hf (h ▸ List.mem_cons_self a t)
    have hft : f ∉ t := fun h => hf (List.mem_cons_of_mem a h)
    simp only [List.filterMap_cons]
    cases hFa : F a with
    | none => exact ih f hft
    | some v =>
      simp only [Option.map_some', List.lookup_cons, beq_false_of_ne hfa, if_false]
      exact ih f hft

theorem lookup_filterMap_present (F : ImportField → Option Nat) :
    ∀ (l : List ImportField) (f : ImportField), f ∈ l → l.Nodup →
      (l.filterMap (fun x => (F x).map (fun v => (x, v)))).lookup f = F f := by
  intro l
  induction l with
  | nil => intro f hf _; exact absurd hf (List.not_mem_nil f)
  | cons a t ih =>
    intro f hf hnd
    rcases List.mem_cons.mp hf with hfa | hft
    · subst hfa
      have hnott : f ∉ t := (List.nodup_cons.mp hnd).1
      simp only [List.filterMap_cons]
      cases hFa : F f with
      | none => exact lookup_filterMap_absent F t f hnott
      | some v => simp [Option.map_some', List.lookup_cons_self]
    · have hfa : f ≠ a := by
        rintro rfl
        exact (List.nodup_cons.mp hnd).1 hft
      have hnd2 := (List.nodup_cons.mp hnd).2
      simp only [List.filterMap_cons]
      cases hFa : F a with
      | none => exact ih f hft hnd2
      | some v =>
        simp only [Option.map_some', List.lookup_cons, beq_false_of_ne hfa, if_false]
        exact ih f hft hnd2

theorem lookup_auto_detect (columns : List String) (f : ImportField) :
    (auto_detect_column_mapping columns).lookup f =
      (List.findIdx? (fun c => headerMatches f (pyStripL (pyLowerL c.data))) columns).map
        (· + 1) := by
  have hmem : f ∈ fieldOrder := by cases f <;> decide
  have hnd : fieldOrder.Nodup := by decide
  unfold auto_detect_column_mapping
  rw [lookup_filterMap_present _ fieldOrder f hmem hnd, scanCols_eq_findIdx,
    List.findIdx?_map]
  rfl

/-- C5 (counterexample): with the single header `"merchant"`, the
mapping assigns column 1 to both `description` and `merchant` — the
algorithm keeps no record of already-claimed headers, so a header can be
claimed by several fields at once. -/
theorem auto_detect_shared_header_cex :
    (auto_detect_column_mapping ["merchant"]).lookup ImportField.description = some 1 ∧
    (auto_detect_column_mapping ["merchant"]).lookup ImportField.merchant = some 1 ∧
    ImportField.description ≠ ImportField.merchant :=
  ⟨rfl, rfl, by decide⟩

/-- C5 (amended): every field is assigned independently: its value is one
plus the position of the first header (in header order) whose lower-cased
trimmed form contains one of the field's patterns, irrespective of the
assignments of the other fields — so two distinct fields may well be
assigned the same header, and no tie-break between fields takes place. -/
theorem auto_detect_fields_independent (columns : List String) (f : ImportField) :
    (auto_detect_column_mapping columns).lookup f =
      (List.findIdx? (fun c => headerMatches f (pyStripL (pyLowerL c.data))) columns).map
        (· + 1) :=
  lookup_auto_detect columns f

/-- C10: every value of the suggested mapping is a 1-based column index:
it lies between 1 and the number of headers, and equals one plus the
position of the first header whose lower-cased trimmed form contains one
of the field's patterns; a field with no matching header is absent from
the mapping. -/
theorem auto_detect_values_one_based (columns : List String) (f : ImportField) :
    (∀ v, (auto_detect_column_mapping columns).lookup f = some v →
        1 ≤ v ∧ v ≤ columns.length ∧
        ∃ i, List.findIdx? (fun c => headerMatches f (pyStripL (pyLowerL c.data))) columns =
          some i ∧ v = i + 1) ∧
    (List.findIdx? (fun c => headerMatches f (pyStripL (pyLowerL c.data))) columns = none →
        (auto_detect_column_mapping columns).lookup f = none) := by
  constructor
  · intro v hv
    rw [lookup_auto_detect] at hv
    cases hfi : List.findIdx? (fun c => headerMatches f (pyStripL (pyLowerL c.data))) columns with
    | none => rw [hfi] at hv; exact absurd hv (by simp)
    | some i =>
      rw [hfi] at hv
      simp only [Option.map_some', Option.some.injEq] at hv
      have hbound : i < columns.length := by
        rcases List.findIdx?_eq_some_iff_getElem.mp hfi with ⟨h, _, _⟩
        exact h
      exact ⟨by omega, by omega, i, rfl, by omega⟩
  · intro h
    rw [lookup_auto_detect, h]
    rfl

theorem strNonEmpty_of_length {s : String} (h : 10 < s.length) : strNonEmpty s = true := by
  unfold strNonEmpty
  cases hd : s.data with
  | nil =>
    exfalso
    have : s.length = 0 := by simp [String.length, hd]
    omega
  | cons a l => simp

theorem strTruthy_some_of_ne {c : String} (h : c ≠ "") : strTruthy (some c) = true := by
  unfold strTruthy strNonEmpty
  cases hc : c.data with
  | nil =>
    exfalso
    apply h
    cases c
    simp at hc
    simp [hc]
  | cons x l => simp [hc]

/-- C4: with no category supplied, the duplicate checker flags the
candidate `(d, a, ds)` exactly when some stored transaction has a date
within ±1 day (inclusive), an amount within ±1% of the candidate's
absolute amount (inclusive, hence exclusive at 1.01%), and a description
whose first 10 lower-cased characters equal the candidate's — the prefix
test applying only when both descriptions are longer than 10
characters. -/
theorem check_duplicate_flags_iff (txns : List StoredTxn) (d : Int) (a : ℚ) (ds : String) :
    check_duplicate_transaction (.ok txns) d a ds none = true ↔
      ∃ t ∈ txns,
        (d - 1 ≤ t.date ∧ t.date ≤ d + 1) ∧
        |t.amount - a| ≤ |a| * (1 / 100) ∧
        ∃ td, t.description = some td ∧ 10 < td.length ∧ 10 < ds.length ∧
          lowerTake10 td = lowerTake10 ds := by
  simp only [check_duplicate_transaction, strTruthy]
  simp only [List.any_eq_true, List.mem_filter]
  constructor
  · rintro ⟨t, ⟨htm, hfil⟩, hdesc⟩
    simp only [Bool.and_eq_true, decide_eq_true_eq] at hfil
    obtain ⟨⟨⟨⟨h1, h2⟩, h3⟩, h4⟩, -⟩ := hfil
    cases htd : t.description with
    | none => rw [htd] at hdesc; exact absurd hdesc (by simp)
    | some td =>
      rw [htd] at hdesc
      simp only [Bool.and_eq_true, decide_eq_true_eq, beq_iff_eq] at hdesc
      obtain ⟨⟨⟨hne1, hne2⟩, hl1, hl2⟩, hpre⟩ := hdesc
      exact ⟨t, htm, ⟨h1, h2⟩, abs_le.mpr ⟨by linarith, by linarith⟩,
        td, htd, hl1, hl2, hpre⟩
  · rintro ⟨t, htm, ⟨h1, h2⟩, hamt, td, htd, hl1, hl2, hpre⟩
    have hab := abs_le.mp hamt
    refine ⟨t, ⟨htm, ?_⟩, ?_⟩
    · simp only [Bool.and_eq_true, decide_eq_true_eq]
      exact ⟨⟨⟨⟨h1, h2⟩, by linarith⟩, by linarith⟩, by simp⟩
    · rw [htd]
      simp only [Bool.and_eq_true, decide_eq_true_eq, beq_iff_eq]
      exact ⟨⟨⟨strNonEmpty_of_length hl1, strNonEmpty_of_length hl2⟩, hl1, hl2⟩, hpre⟩

/-- C4 (witness): the characterization instantiated at a concrete empty
store, where the checker evaluates to `false`. -/
theorem check_duplicate_flags_iff_witness :
    check_duplicate_transaction (.ok []) 0 0 "short" none = false := by
  cases hb : check_duplicate_transaction (.ok []) 0 0 "short" none with
  | false => rfl
  | true =>
    exact absurd ((check_duplicate_flags_iff [] 0 0 "short").mp hb) (by simp)

/-- C8: when a non-empty category string is supplied, the stored-side
condition added to the query is only `category_id IS NOT NULL`: the
flagging condition never compares the stored category to the supplied
one, whose value does not occur in the characterization at all. -/
theorem check_duplicate_category_nonnull_only (txns : List StoredTxn) (d : Int) (a : ℚ)
    (ds c : String) (hc : c ≠ "") :
    check_duplicate_transaction (.ok txns) d a ds (some c) = true ↔
      ∃ t ∈ txns,
        (d - 1 ≤ t.date ∧ t.date ≤ d + 1) ∧
        |t.amount - a| ≤ |a| * (1 / 100) ∧
        t.category_id ≠ none ∧
        ∃ td, t.description = some td ∧ 10 < td.length ∧ 10 < ds.length ∧
          lowerTake10 td = lowerTake10 ds := by
  simp only [check_duplicate_transaction, strTruthy_some_of_ne hc, if_true]
  simp only [List.any_eq_true, List.mem_filter]
  constructor
  · rintro ⟨t, ⟨htm, hfil⟩, hdesc⟩
    simp only [Bool.and_eq_true, decide_eq_true_eq] at hfil
    obtain ⟨⟨⟨⟨h1, h2⟩, h3⟩, h4⟩, hcat⟩ := hfil
    cases htd : t.description with
    | none => rw [htd] at hdesc; exact absurd hdesc (by simp)
    | some td =>
      rw [htd] at hdesc
      simp only [Bool.and_eq_true, decide_eq_true_eq, beq_iff_eq] at hdesc
      obtain ⟨⟨⟨hne1, hne2⟩, hl1, hl2⟩, hpre⟩ := hdesc
      exact ⟨t, htm, ⟨h1, h2⟩, abs_le.mpr ⟨by linarith, by linarith⟩,
        Option.isSome_iff_ne_none.mp hcat, td, htd, hl1, hl2, hpre⟩
  · rintro ⟨t, htm, ⟨h1, h2⟩, hamt, hcat, td, htd, hl1, hl2, hpre⟩
    have hab := abs_le.mp hamt
    refine ⟨t, ⟨htm, ?_⟩, ?_⟩
    · simp only [Bool.and_eq_true, decide_eq_true_eq]
      exact ⟨⟨⟨⟨h1, h2⟩, by linarith⟩, by linarith⟩, Option.isSome_iff_ne_none.mpr hcat⟩
    · rw [htd]
      simp only [Bool.and_eq_true, decide_eq_true_eq, beq_iff_eq]
      exact ⟨⟨⟨strNonEmpty_of_length hl1, strNonEmpty_of_length hl2⟩, hl1, hl2⟩, hpre⟩

/-- C8 (witness): the characterization applied at a concrete store whose
single row carries category 3 while the candidate supplies the unrelated
category string `"Food"`. -/
theorem check_duplicate_category_nonnull_witness :
    ("Food" : String) ≠ "" ∧
    (check_duplicate_transaction (.ok [wTxn]) 5 0 "abcdefghijkL" (some "Food") = true ↔
      ∃ t ∈ [wTxn],
        ((5 : Int) - 1 ≤ t.date ∧ t.date ≤ (5 : Int) + 1) ∧
        |t.amount - 0| ≤ |(0 : ℚ)| * (1 / 100) ∧
        t.category_id ≠ none ∧
        ∃ td, t.description = some td ∧ 10 < td.length ∧
          10 < ("abcdefghijkL" : String).length ∧
          lowerTake10 td = lowerTake10 "abcdefghijkL") :=
  ⟨by decide, check_duplicate_category_nonnull_only [wTxn] 5 0 "abcdefghijkL" "Food" (by decide)⟩

/-- C9: an exception raised by the storage session inside the duplicate
checker is swallowed and turned into `False`, and consequently a row
whose duplicate check hits such a storage failure is still staged by the
importer (given that its other external calls succeed). -/
theorem check_duplicate_storage_error (d : Int) (a : ℚ) (ds : String) (c : Option String)
    (catMap : List (String × Nat)) (env : RowEnv)
    (h1 : env.dupDb = .error ()) (h2 : env.extractOk = true)
    (h3 : env.amount ≠ 0) (h4 : env.addOk = true) :
    check_duplicate_transaction (.error ()) d a ds c = false ∧
    processRow catMap env =
      .ok (some ⟨env.date, env.amount, env.description, catMap.lookup env.category⟩) := by
  constructor
  · rfl
  · unfold processRow
    rw [h1, h2, h4]
    simp [h3, check_duplicate_transaction]

/-- C9 (witness): concrete storage failure; the checker returns `false`
and the row is staged. -/
theorem check_duplicate_storage_error_witness :
    check_duplicate_transaction (.error ()) 0 0 "x" none = false ∧
    processRow [] wRowDbErr =
      .ok (some ⟨wRowDbErr.date, wRowDbErr.amount, wRowDbErr.description,
        List.lookup wRowDbErr.category []⟩) :=
  check_duplicate_storage_error 0 0 "x" none [] wRowDbErr rfl rfl (by decide) rfl

/-- C7: a row whose resolved amount is exactly 0 is skipped silently —
removing it from the batch changes neither `success_count` nor
`error_count` nor the staged records. -/
theorem zero_amount_rows_skipped (catMap : List (String × Nat)) (pre post : List RowEnv)
    (env : RowEnv) (h1 : env.extractOk = true) (h2 : env.amount = 0) :
    importLoop catMap (pre ++ env :: post) = importLoop catMap (pre ++ post) := by
  have hrow : processRow catMap env = .ok none := by
    unfold processRow
    rw [h1, h2]
    simp
  induction pre with
  | nil => simp only [List.nil_append, importLoop, hrow]
  | cons p ps ih => simp only [List.cons_append, importLoop, List.append_eq, ih]

/-- C7 (witness): a concrete zero-amount row contributes nothing. -/
theorem zero_amount_rows_skipped_witness :
    importLoop [] ([] ++ wRowZero :: []) = importLoop [] ([] ++ []) :=
  zero_amount_rows_skipped [] [] [] wRowZero rfl rfl

theorem importLoop_append (catMap : List (String × Nat)) :
    ∀ (xs ys : List RowEnv),
      importLoop catMap (xs ++ ys) =
        ((importLoop catMap xs).1 + (importLoop catMap ys).1,
         (importLoop catMap xs).2.1 + (importLoop catMap ys).2.1,
         (importLoop catMap xs).2.2 ++ (importLoop catMap ys).2.2) := by
  intro xs
  induction xs with
  | nil => intro ys; simp [importLoop]
  | cons x t ih =>
    intro ys
    cases hx : processRow catMap x with
    | error e =>
      simp only [List.cons_append, importLoop, List.append_eq, hx, ih ys]
      simp [Prod.ext_iff]
      omega
    | ok o =>
      cases o with
      | none => simp only [List.cons_append, importLoop, List.append_eq, hx, ih ys]
      | some v =>
        simp only [List.cons_append, importLoop, List.append_eq, hx, ih ys]
        simp [Prod.ext_iff]
        omega

/-- C1: if staging one row raises, that row contributes exactly one to
`error_count` while the surrounding rows are processed as if it were
absent; a successful commit persists every staged row together; and a
failing commit yields `success_count = 0` with `error_count` equal to
the total number of input rows (and nothing persisted). -/
theorem save_atomic_row_error_batch (catMap : List (String × Nat)) (pre post : List RowEnv)
    (env : RowEnv) (h : processRow catMap env = .error ()) :
    importLoop catMap (pre ++ env :: post) =
      ((importLoop catMap pre).1 + (importLoop catMap post).1,
       (importLoop catMap pre).2.1 + (importLoop catMap post).2.1 + 1,
       (importLoop catMap pre).2.2 ++ (importLoop catMap post).2.2) ∧
    save_transactions_to_db_atomic catMap true (pre ++ env :: post) =
      importLoop catMap (pre ++ env :: post) ∧
    save_transactions_to_db_atomic catMap false (pre ++ env :: post) =
      (0, (pre ++ env :: post).length, []) := by
  refine ⟨?_, rfl, rfl⟩
  rw [importLoop_append]
  have hmid : importLoop catMap (env :: post) =
      ((importLoop catMap post).1, (importLoop catMap post).2.1 + 1,
       (importLoop catMap post).2.2) := by
    simp only [importLoop, h]
  rw [hmid]
  simp [Prod.ext_iff]
  omega

/-- C1 (witness): a three-row batch whose middle row raises during
staging. -/
theorem save_atomic_row_error_batch_witness :
    importLoop [] ([wRowOkA] ++ wRowErr :: [wRowOkB]) =
      ((importLoop [] [wRowOkA]).1 + (importLoop [] [wRowOkB]).1,
       (importLoop [] [wRowOkA]).2.1 + (importLoop [] [wRowOkB]).2.1 + 1,
       (importLoop [] [wRowOkA]).2.2 ++ (importLoop [] [wRowOkB]).2.2) ∧
    save_transactions_to_db_atomic [] true ([wRowOkA] ++ wRowErr :: [wRowOkB]) =
      importLoop [] ([wRowOkA] ++ wRowErr :: [wRowOkB]) ∧
    save_transactions_to_db_atomic [] false ([wRowOkA] ++ wRowErr :: [wRowOkB]) =
      (0, ([wRowOkA] ++ wRowErr :: [wRowOkB]).length, []) :=
  save_atomic_row_error_batch [] [wRowOkA] [wRowOkB] wRowErr rfl

theorem tryFormats_none_iff (s : String) :
    ∀ fs : List DateFmt, tryFormats s fs = none ↔ ∀ g ∈ fs, strptime g s = none := by
  intro fs
  induction fs with
  | nil => simp [tryFormats]
  | cons f fs ih =>
    simp only [tryFormats]
    cases hf : strptime f s with
    | some d => simp [hf, List.forall_mem_cons]
    | none => simp [hf, List.forall_mem_cons, ih]

theorem tryFormats_some_iff (s : String) :
    ∀ (fs : List DateFmt) (d : PyDate),
      tryFormats s fs = some d ↔
        ∃ (i : Nat) (g : DateFmt), fs[i]? = some g ∧ strptime g s = some d ∧
          ∀ (j : Nat) (g2 : DateFmt), j < i → fs[j]? = some g2 → strptime g2 s = none := by
  intro fs
  induction fs with
  | nil => intro d; simp [tryFormats]
  | cons f fs ih =>
    intro d
    simp only [tryFormats]
    cases hf : strptime f s with
    | some d0 =>
      constructor
      · intro h
        refine ⟨0, f, List.getElem?_cons_zero, ?_, ?_⟩
        · rw [hf]; exact h
        · intro j g2 hj
          exact absurd hj (Nat.not_lt_zero j)
      · rintro ⟨i, g, hg, hgs, hprev⟩
        cases i with
        | zero =>
          rw [List.getElem?_cons_zero] at hg
          injection hg with hg
          subst hg
          rw [hf] at hgs
          exact hgs
        | succ n =>
          have h0 := hprev 0 f (Nat.succ_pos n) List.getElem?_cons_zero
          rw [hf] at h0
          exact absurd h0 (by simp)
    | none =>
      rw [ih d]
      constructor
      · rintro ⟨i, g, hg, hgs, hprev⟩
        refine ⟨i + 1, g, by simpa using hg, hgs, ?_⟩
        intro j g2 hj hg2
        cases j with
        | zero =>
          rw [List.getElem?_cons_zero] at hg2
          injection hg2 with hg2
          subst hg2
          exact hf
        | succ m =>
          exact hprev m g2 (by omega) (by simpa using hg2)
      · rintro ⟨i, g, hg, hgs, hprev⟩
        cases i with
        | zero =>
          rw [List.getElem?_cons_zero] at hg
          injection hg with hg
          subst hg
          rw [hf] at hgs
          exact absurd hgs (by simp)
        | succ n =>
          refine ⟨n, g, by simpa using hg, hgs, ?_⟩
          intro j g2 hj hg2
          exact hprev (j + 1) g2 (by omega) (by simpa using hg2)

/-- C6: the date parser strips the cell, tries the nine explicit formats
of `dateFormats` in exactly their list order — a `some` result is the
parse of the first format that succeeds, all earlier formats failing —
and when all nine fail it defers to the permissive fallback parser; the
result is `none` (never an exception) exactly when the formats and the
fallback all fail. -/
theorem parse_dates_format_priority (fb : String → Option PyDate) (raw : String) :
    (∀ d, parse_single_date fb (some raw) = some d ↔
      ((∃ (i : Nat) (g : DateFmt), dateFormats[i]? = some g ∧
          strptime g (pyStrip raw) = some d ∧
          ∀ (j : Nat) (g2 : DateFmt), j < i → dateFormats[j]? = some g2 →
            strptime g2 (pyStrip raw) = none) ∨
       ((∀ g ∈ dateFormats, strptime g (pyStrip raw) = none) ∧
          fb (pyStrip raw) = some d))) ∧
    (parse_single_date fb (some raw) = none ↔
       (∀ g ∈ dateFormats, strptime g (pyStrip raw) = none) ∧
         fb (pyStrip raw) = none) := by
  simp only [parse_single_date]
  cases ht : tryFormats (pyStrip raw) dateFormats with
  | some d0 =>
    have hsome := (tryFormats_some_iff (pyStrip raw) dateFormats d0).mp ht
    constructor
    · intro d
      constructor
      · intro h
        injection h with h
        subst h
        exact Or.inl hsome
      · rintro (⟨i, g, hg, hgs, hprev⟩ | ⟨hall, hfb⟩)
        · have := (tryFormats_some_iff (pyStrip raw) dateFormats d).mpr ⟨i, g, hg, hgs, hprev⟩
          rw [ht] at this
          injection this with this
          rw [this]
        · have := (tryFormats_none_iff (pyStrip raw) dateFormats).mpr hall
          rw [ht] at this
          exact absurd this (by simp)
    · constructor
      · intro h
        exact absurd h (by simp)
      · rintro ⟨hall, -⟩
        have := (tryFormats_none_iff (pyStrip raw) dateFormats).mpr hall
        rw [ht] at this
        exact absurd this (by simp)
  | none =>
    have hall := (tryFormats_none_iff (pyStrip raw) dateFormats).mp ht
    constructor
    · intro d
      constructor
      · intro h
        exact Or.inr ⟨hall, h⟩
      · rintro (⟨i, g, hg, hgs, hprev⟩ | ⟨-, hfb⟩)
        · exact absurd hgs (by simp [hall g (List.getElem?_mem hg)])
        · exact hfb
    · constructor
      · intro h
        exact ⟨hall, h⟩
      · rintro ⟨-, hfb⟩
        exact hfb

/-- C6 (witness): the characterization instantiated at a concrete cell
and the always-failing fallback. -/
theorem parse_dates_format_priority_witness :
    (∀ d, parse_single_date (fun _ => none) (some "21/10/2025") = some d ↔
      ((∃ (i : Nat) (g : DateFmt), dateFormats[i]? = some g ∧
          strptime g (pyStrip "21/10/2025") = some d ∧
          ∀ (j : Nat) (g2 : DateFmt), j < i → dateFormats[j]? = some g2 →
            strptime g2 (pyStrip "21/10/2025") = none) ∨
       ((∀ g ∈ dateFormats, strptime g (pyStrip "21/10/2025") = none) ∧
          (fun (_ : String) => (none : Option PyDate)) (pyStrip "21/10/2025") = some d))) ∧
    (parse_single_date (fun _ => none) (some "21/10/2025") = none ↔
       (∀ g ∈ dateFormats, strptime g (pyStrip "21/10/2025") = none) ∧
         (fun (_ : String) => (none : Option PyDate)) (pyStrip "21/10/2025") = none) :=
  parse_dates_format_priority (fun _ => none) "21/10/2025"

/-- C5 (witness for the amended claim): the independence equation
instantiated at the single colliding header. -/
theorem auto_detect_fields_independent_witness :
    (auto_detect_column_mapping ["merchant"]).lookup ImportField.merchant =
      (List.findIdx?
        (fun c => headerMatches ImportField.merchant (pyStripL (pyLowerL c.data)))
        ["merchant"]).map (· + 1) :=
  auto_detect_fields_independent ["merchant"] ImportField.merchant

/-- C10 (witness): the bounds applied to the header list
`["Date", "Amt"]`, whose `date` field maps to column 1. -/
theorem auto_detect_values_one_based_witness :
    1 ≤ 1 ∧ 1 ≤ (["Date", "Amt"] : List String).length ∧
    ∃ i, List.findIdx?
        (fun c => headerMatches ImportField.date (pyStripL (pyLowerL c.data)))
        ["Date", "Amt"] = some i ∧ 1 = i + 1 :=
  (auto_detect_values_one_based ["Date", "Amt"] ImportField.date).1 1 rfl

/-- Sanity check: the ambiguous string `"01/02/2025"` is resolved by the
first format (day before month), giving 1 February 2025. -/
theorem sanity_date_order : parse_single_date (fun _ => none) (some "01/02/2025") =
    some ⟨2025, 2, 1⟩ := rfl

/-- Sanity check: an abbreviated and a full month name hit the eighth and
ninth formats respectively. -/
theorem sanity_month_names :
    parse_single_date (fun _ => none) (some "21 Oct 2025") = some ⟨2025, 10, 21⟩ ∧
    parse_single_date (fun _ => none) (some "21 October 2025") = some ⟨2025, 10, 21⟩ :=
  ⟨rfl, rfl⟩

/-- Sanity check: a calendar-invalid day fails all nine formats and falls
through to the fallback. -/
theorem sanity_invalid_date : parse_single_date (fun _ => none) (some "30/02/2025") = none := rfl

/-- Sanity check: a typical bank-statement header triple is mapped to the
expected 1-based columns. -/
theorem sanity_mapping :
    auto_detect_column_mapping [" Narration ", "Txn Date", "Withdrawal Amt"] =
      [(.date, 2), (.description, 1), (.amount, 3)] := rfl
